import Mathlib

/-! Verification of the jove2d FFI wrapper layer: the handle tables, the
identifier codec, the tagged-user-data convention, the batched step protocol
and the streaming decoder slots. Definitions are shallow embeddings of the C
sources `src/vendor/box2d_jove/box2d_jove.c`,
`src/vendor/audio_decode/audio_decode.c` and
`src/vendor/pl_mpeg/pl_mpeg_jove.c`. Foreign library calls (Box2D, stb_vorbis,
dr_mp3, dr_flac, pl_mpeg) are oracles: their observable results appear as
explicit inputs, and theorems that need a foreign contract (e.g. a backend
read returns a non-negative count no larger than requested) state it as a
hypothesis. -/

namespace Jove

/-! ## Identifier codec (`pack_world` / `unpack_world` / `pack_joint` / `unpack_joint`)

A foreign identifier of known byte width is modelled as its list of bytes;
`memcpy` into a zero-initialized unsigned primitive is the little-endian value
of those bytes, and `memcpy` back out takes the low bytes of that value. -/

/-- Little-endian value of a byte list (the unsigned integer that results from
`memcpy`ing the bytes over a zero-initialized primitive). -/
def bytesToNat : List Nat → Nat
  | [] => 0
  | b :: bs => b + 256 * bytesToNat bs

/-- The low `k` little-endian bytes of an unsigned value (what `memcpy`ing `k`
bytes out of the primitive produces). -/
def natToBytes : Nat → Nat → List Nat
  | 0, _ => []
  | k + 1, v => (v % 256) :: natToBytes k (v / 256)

/-- `pack_world`: copy the 4 bytes of a `b2WorldId` into a `uint32_t`. The
`b2WorldId` is 4 bytes wide and is modelled as its byte list. -/
def pack_world (id : List Nat) : Nat := bytesToNat id

/-- `unpack_world`: copy the 4 bytes of a `uint32_t` into a `b2WorldId`. -/
def unpack_world (v : Nat) : List Nat := natToBytes 4 v

/-- `pack_joint`: zero-initialize a `uint64_t` and copy `sizeof(b2JointId)`
(8) bytes into it. -/
def pack_joint (id : List Nat) : Nat := bytesToNat id

/-- `unpack_joint`: copy the low 8 bytes of a `uint64_t` into a `b2JointId`. -/
def unpack_joint (v : Nat) : List Nat := natToBytes 8 v

/-! ## Tagged user data -/

/-- Recovery of a caller handle from a foreign object's user-data annotation,
as written at every recovery site: `ud ? (int)(intptr_t)ud - 1 : -1`. -/
def recoverHandle (ud : Int) : Int := if ud = 0 then -1 else ud - 1

/-! ## C-side body/shape index storage (`box2d_jove.c`) -/

/-- MAX_BODIES from `box2d_jove.c`. -/
def MAX_BODIES : Int := 4096

/-- MAX_SHAPES from `box2d_jove.c`. -/
def MAX_SHAPES : Int := 8192

/-- The body index storage: the free stack `g_bodyFree` (list head is the most
recently pushed entry `g_bodyFree[g_bodyFreeCount - 1]`, and `free.length` is
`g_bodyFreeCount`), the high-water mark `g_bodyNextIdx`, and per index the
user-data annotation carried by the foreign body stored in `g_bodies[i]`
(the value `b2Body_GetUserData` would return, with 0 for `NULL`). -/
structure BodyTable where
  free : List Int
  nextIdx : Int
  userData : Int → Int

/-- `alloc_body`: pop the free stack if non-empty, else extend the high-water
mark while below `MAX_BODIES`, else fail with -1. -/
def alloc_body (t : BodyTable) : Int × BodyTable :=
  match t.free with
  | i :: rest => (i, { t with free := rest })
  | [] =>
    if t.nextIdx < MAX_BODIES then (t.nextIdx, { t with nextIdx := t.nextIdx + 1 })
    else (-1, t)

/-- `free_body`: push `idx` onto the free stack when `0 <= idx < MAX_BODIES`
and the stack is not full; otherwise do nothing. No occupancy or duplicate
check is performed. -/
def free_body (t : BodyTable) (idx : Int) : BodyTable :=
  if 0 ≤ idx ∧ idx < MAX_BODIES ∧ (t.free.length : Int) < MAX_BODIES then
    { t with free := idx :: t.free }
  else t

/-- `jove_CreateBody`: allocate an index; on success create the foreign body
with `def.userData = (void*)(intptr_t)(idx + 1)` and store it in
`g_bodies[idx]`. The scalar config fields (world, type, position, angle) flow
only into the foreign call and are not part of the wrapper state. -/
def jove_CreateBody (t : BodyTable) : Int × BodyTable :=
  let r := alloc_body t
  if r.1 < 0 then (-1, r.2)
  else (r.1, { r.2 with userData := fun i => if i = r.1 then r.1 + 1 else r.2.userData i })

/-- `jove_DestroyBody`: destroy the foreign body `g_bodies[bodyIdx]` (a
foreign call, made with no range or occupancy check) and then
`free_body(bodyIdx)`. -/
def jove_DestroyBody (t : BodyTable) (bodyIdx : Int) : BodyTable :=
  free_body t bodyIdx

/-- The shape index storage: free stack `g_shapeFree`, high-water mark
`g_shapeNextIdx`, per index the user-data annotation of the foreign shape in
`g_shapes[i]` (or of the shapes of the chain in `g_chains[i]`), and the
`g_shapeIsChain` flag. -/
structure ShapeTable where
  free : List Int
  nextIdx : Int
  userData : Int → Int
  isChain : Int → Int

/-- `alloc_shape`: pop the free stack if non-empty, else extend the high-water
mark while below `MAX_SHAPES`, else fail with -1. -/
def alloc_shape (t : ShapeTable) : Int × ShapeTable :=
  match t.free with
  | i :: rest => (i, { t with free := rest })
  | [] =>
    if t.nextIdx < MAX_SHAPES then (t.nextIdx, { t with nextIdx := t.nextIdx + 1 })
    else (-1, t)

/-- `free_shape`: push `idx` onto the free stack when `0 <= idx < MAX_SHAPES`
and the stack is not full; otherwise do nothing. -/
def free_shape (t : ShapeTable) (idx : Int) : ShapeTable :=
  if 0 ≤ idx ∧ idx < MAX_SHAPES ∧ (t.free.length : Int) < MAX_SHAPES then
    { t with free := idx :: t.free }
  else t

/-- `jove_CreateCircleShape`: allocate an index; on success create the foreign
shape with `def.userData = (void*)(intptr_t)(idx + 1)` and clear the chain
flag. `jove_CreateBoxShape`, `jove_CreatePolygonShape` and
`jove_CreateEdgeShape` are identical in every modelled aspect (same alloc,
same `userData` assignment, same flag). -/
def jove_CreateCircleShape (t : ShapeTable) : Int × ShapeTable :=
  let r := alloc_shape t
  if r.1 < 0 then (-1, r.2)
  else (r.1, { r.2 with
    userData := fun i => if i = r.1 then r.1 + 1 else r.2.userData i,
    isChain := fun i => if i = r.1 then 0 else r.2.isChain i })

/-- `jove_CreateChainShape`: allocate an index and create the chain from a
`b2DefaultChainDef` whose `userData` field is never assigned by the wrapper —
it keeps the Box2D default of `NULL` (0) — then set the chain flag. This is
the one creator that stores no tag. -/
def jove_CreateChainShape (t : ShapeTable) : Int × ShapeTable :=
  let r := alloc_shape t
  if r.1 < 0 then (-1, r.2)
  else (r.1, { r.2 with
    userData := fun i => if i = r.1 then 0 else r.2.userData i,
    isChain := fun i => if i = r.1 then 1 else r.2.isChain i })

/-- `jove_DestroyShape`: destroy the foreign shape (no range or occupancy
check) and `free_shape(shapeIdx)`; `jove_DestroyChain` is identical on the
modelled state. -/
def jove_DestroyShape (t : ShapeTable) (shapeIdx : Int) : ShapeTable :=
  free_shape t shapeIdx

/-- `jove_Shape_GetBody`: look up the owning foreign body (a foreign call) and
recover its caller handle from its user-data annotation `ud`. -/
def jove_Shape_GetBody (ud : Int) : Int := recoverHandle ud

/-! ## Streaming audio decoder slots (`audio_decode.c`) -/

/-- MAX_DECODERS from `audio_decode.c`. -/
def MAX_DECODERS : Int := 32

/-- DECODER_READ_BUF_FRAMES from `audio_decode.c`; `g_read_buf` holds
`DECODER_READ_BUF_FRAMES * 2` 16-bit samples. -/
def DECODER_READ_BUF_FRAMES : Int := 8192

/-- One slot of `g_decoders`: `type` is 0=none, 1=ogg, 2=mp3, 3=flac, plus the
shared metadata fields. The union of backend decoder states is foreign and not
modelled. -/
structure Decoder where
  type : Int
  channels : Int
  sample_rate : Int
  total_frames : Int
  position : Int
deriving DecidableEq

/-- A zeroed slot: the static initialization of `g_decoders`, and the result
of `memset(d, 0, sizeof(Decoder))`. -/
def zeroDecoder : Decoder :=
  { type := 0, channels := 0, sample_rate := 0, total_frames := 0, position := 0 }

/-- The initial decoder table `g_decoders`: 32 zeroed slots. -/
def decInit : List Decoder := List.replicate 32 zeroDecoder

/-- Read `g_decoders[idx]` (meaningful for `0 <= idx < MAX_DECODERS` on a
32-slot table). -/
def decGet (t : List Decoder) (idx : Int) : Decoder := t.getD idx.toNat zeroDecoder

/-- First index satisfying `p`: the C `for` scan with `break`. -/
def firstIdxWhere {α : Type} (p : α → Bool) : List α → Option Nat
  | [] => none
  | a :: rest => if p a then some 0 else (firstIdxWhere p rest).map (· + 1)

/-- Backend-reported stream metadata for a successful backend open. -/
structure AudioInfo where
  channels : Int
  sample_rate : Int
  total_frames : Int
deriving DecidableEq

/-- Outcome of extension sniffing plus the backend open call for a path:
`noExt` when `strrchr(path, '.')` is `NULL`; `unknownExt` for an extension
other than `.ogg`/`.mp3`/`.flac`; otherwise the matched format carrying `none`
when the backend open call fails and `some info` when it succeeds. -/
inductive AudioSource where
  | noExt
  | unknownExt
  | ogg (r : Option AudioInfo)
  | mp3 (r : Option AudioInfo)
  | flac (r : Option AudioInfo)

/-- The slot contents written by a successful `jove_decoder_open` dispatch
case: the format's type code, the backend-reported metadata, `position = 0`. -/
def openedDecoder (ty : Int) (info : AudioInfo) : Decoder :=
  { type := ty, channels := info.channels, sample_rate := info.sample_rate,
    total_frames := info.total_frames, position := 0 }

/-- `jove_decoder_open`: scan for the first slot with `type == 0` (return -1
if none); return -1 before touching the slot when the path has no extension;
otherwise `memset` the slot to zero and dispatch on the extension, filling the
slot and returning its index on success, and returning -1 (slot left zeroed)
on an unknown extension or a backend failure. -/
def jove_decoder_open (t : List Decoder) (src : AudioSource) : Int × List Decoder :=
  match firstIdxWhere (fun d => d.type == 0) t with
  | none => (-1, t)
  | some idx =>
    match src with
    | .noExt => (-1, t)
    | .unknownExt => (-1, t.set idx zeroDecoder)
    | .ogg none => (-1, t.set idx zeroDecoder)
    | .ogg (some info) => ((idx : Int), t.set idx (openedDecoder 1 info))
    | .mp3 none => (-1, t.set idx zeroDecoder)
    | .mp3 (some info) => ((idx : Int), t.set idx (openedDecoder 2 info))
    | .flac none => (-1, t.set idx zeroDecoder)
    | .flac (some info) => ((idx : Int), t.set idx (openedDecoder 3 info))

/-- `jove_decoder_close`: return unchanged when `idx` is out of range;
otherwise tear down the backend state (a foreign call dispatched on `type`)
and set `type` to 0, leaving every other field of the slot as it was. -/
def jove_decoder_close (t : List Decoder) (idx : Int) : List Decoder :=
  if idx < 0 ∨ MAX_DECODERS ≤ idx then t
  else t.set idx.toNat { decGet t idx with type := 0 }

/-- `jove_decoder_read`: return 0 for an out-of-range index or a closed slot;
clamp `max_frames` to `DECODER_READ_BUF_FRAMES * 2 / channels` (C integer
division, truncating) and return 0 if the clamped count is not positive;
otherwise dispatch the backend read into `g_read_buf` — `fr` is the oracle
value of the frame count that backend call returns — advance `position` by
`fr` and return `fr`. -/
def jove_decoder_read (t : List Decoder) (idx : Int) (max_frames : Int) (fr : Int) :
    Int × List Decoder :=
  if idx < 0 ∨ MAX_DECODERS ≤ idx then (0, t)
  else
    let d := decGet t idx
    if d.type = 0 then (0, t)
    else
      let buf_max := Int.tdiv (DECODER_READ_BUF_FRAMES * 2) d.channels
      let mf := if max_frames > buf_max then buf_max else max_frames
      if mf ≤ 0 then (0, t)
      else (fr, t.set idx.toNat { d with position := d.position + fr })

/-- The clamped frame request passed to the backend by `jove_decoder_read`:
`max_frames` clamped to `DECODER_READ_BUF_FRAMES * 2 / channels`. -/
def readClampedRequest (max_frames channels : Int) : Int :=
  let buf_max := Int.tdiv (DECODER_READ_BUF_FRAMES * 2) channels
  if max_frames > buf_max then buf_max else max_frames

/-- `jove_decoder_seek`: return unchanged when `idx` is out of range; clamp a
negative frame to 0; for an open slot (type 1, 2 or 3) dispatch the backend
seek and record the clamped frame as `position`; for a closed slot the switch
matches no case and nothing changes. -/
def jove_decoder_seek (t : List Decoder) (idx : Int) (frame : Int) : List Decoder :=
  if idx < 0 ∨ MAX_DECODERS ≤ idx then t
  else
    let f := if frame < 0 then 0 else frame
    let d := decGet t idx
    if d.type = 1 ∨ d.type = 2 ∨ d.type = 3 then
      t.set idx.toNat { d with position := f }
    else t

/-- `jove_decoder_get_info`: write zeros to the out-parameters when `idx` is
out of range; otherwise report the slot's stored `channels`, `sample_rate`
and `total_frames`, whatever they are. -/
def jove_decoder_get_info (t : List Decoder) (idx : Int) : Int × Int × Int :=
  if idx < 0 ∨ MAX_DECODERS ≤ idx then (0, 0, 0)
  else
    let d := decGet t idx
    (d.channels, d.sample_rate, d.total_frames)

/-- `jove_decoder_tell`: 0 when `idx` is out of range, else the slot's stored
`position`, whatever it is. -/
def jove_decoder_tell (t : List Decoder) (idx : Int) : Int :=
  if idx < 0 ∨ MAX_DECODERS ≤ idx then 0
  else (decGet t idx).position

/-! ## Video slots (`pl_mpeg_jove.c`) -/

/-- MAX_VIDEOS from `pl_mpeg_jove.c`. -/
def MAX_VIDEOS : Int := 16

/-- One slot of `g_videos`: `plm` is whether the `plm_t*` pointer is non-NULL
(slot occupancy), `rgba_buf` whether the pixel buffer pointer is non-NULL; the
foreign decoder state behind `plm` is not modelled. -/
structure VideoSlot where
  plm : Bool
  rgba_buf : Bool
  width : Int
  height : Int
  playing : Int
  has_audio : Int
  audio_buf_len : Int
deriving DecidableEq

/-- A zeroed video slot: the `_init_slots` state, and the result of
`memset(slot, 0, sizeof(VideoSlot))` in `jove_video_close`. -/
def zeroVideoSlot : VideoSlot :=
  { plm := false, rgba_buf := false, width := 0, height := 0, playing := 0,
    has_audio := 0, audio_buf_len := 0 }

/-- The initial video table `g_videos` after `_init_slots`. -/
def vidInit : List VideoSlot := List.replicate 16 zeroVideoSlot

/-- Read `g_videos[idx]`. -/
def vidGet (t : List VideoSlot) (idx : Int) : VideoSlot := t.getD idx.toNat zeroVideoSlot

/-- `_alloc_slot`: the first slot whose `plm` pointer is NULL, if any. -/
def alloc_slot (t : List VideoSlot) : Option Nat := firstIdxWhere (fun s => !s.plm) t

/-- Outcome of `plm_create_with_filename` plus the pixel-buffer `malloc`:
`fail` when the backend rejects the source (returns NULL); otherwise the
stream's width, height and audio stream count, and whether the `malloc` of the
RGBA buffer succeeds. -/
inductive PlmSource where
  | fail
  | ok (width height numAudioStreams : Int) (mallocOk : Bool)

/-- `jove_video_open`: take the first free slot (return -1 if none); return -1
with the table untouched when `plm_create_with_filename` fails; otherwise
record width, height, `playing = 0` and an empty audio buffer, and then either
complete the open (buffer allocated, callbacks installed, `has_audio` set from
`decode_audio` and the stream's audio stream count) returning the index, or —
when the `malloc` fails — destroy the foreign stream, reset `plm` to NULL and
return -1, the width/height fields keeping the values just written. -/
def jove_video_open (t : List VideoSlot) (src : PlmSource) (decode_audio : Int) :
    Int × List VideoSlot :=
  match alloc_slot t with
  | none => (-1, t)
  | some idx =>
    match src with
    | .fail => (-1, t)
    | .ok w h na mallocOk =>
      let s := vidGet t (idx : Int)
      let hasAud : Int := if decode_audio ≠ 0 ∧ 0 < na then 1 else 0
      let sOk : VideoSlot :=
        { plm := true, rgba_buf := true, width := w, height := h, playing := 0,
          has_audio := hasAud, audio_buf_len := 0 }
      let sFail : VideoSlot :=
        { s with plm := false, rgba_buf := false, width := w, height := h,
                 playing := 0, audio_buf_len := 0 }
      if mallocOk then ((idx : Int), t.set idx sOk)
      else (-1, t.set idx sFail)

/-- `jove_video_close`: return unchanged when `idx` is out of range or the
slot's `plm` pointer is NULL; otherwise destroy the foreign stream, free the
pixel buffer and `memset` the slot to zero. -/
def jove_video_close (t : List VideoSlot) (idx : Int) : List VideoSlot :=
  if idx < 0 ∨ MAX_VIDEOS ≤ idx then t
  else
    let s := vidGet t idx
    if !s.plm then t
    else t.set idx.toNat zeroVideoSlot

/-- `jove_video_play`: a representative handle-qualified video mutator. It is
a no-op when `idx` is out of range or the slot's `plm` pointer is NULL;
otherwise it sets `playing = 1`. -/
def jove_video_play (t : List VideoSlot) (idx : Int) : List VideoSlot :=
  if idx < 0 ∨ MAX_VIDEOS ≤ idx then t
  else
    let s := vidGet t idx
    if !s.plm then t
    else t.set idx.toNat { s with playing := 1 }

/-- `jove_video_get_width`: a representative handle-qualified video query. It
returns 0 when `idx` is out of range or the slot's `plm` pointer is NULL;
otherwise the slot's stored width. -/
def jove_video_get_width (t : List VideoSlot) (idx : Int) : Int :=
  if idx < 0 ∨ MAX_VIDEOS ≤ idx then 0
  else
    let s := vidGet t idx
    if !s.plm then 0
    else s.width

/-! ## Decoder operation sequences (for the position invariant)

A host call into the streaming decoder API, with the foreign backend's
response for that call embedded as data (the opened stream's metadata, or the
frame count a backend read returns). -/

/-- One decoder API call. -/
inductive DecOp where
  | openD (src : AudioSource)
  | closeD (idx : Int)
  | readD (idx : Int) (max_frames : Int) (fr : Int)
  | seekD (idx : Int) (frame : Int)

/-- The foreign backend contract assumed of an operation: a backend read call
reports a non-negative frame count (the three backends return unsigned or
non-negative counts). -/
def DecOp.wf : DecOp → Prop
  | .readD _ _ fr => 0 ≤ fr
  | _ => True

instance : (op : DecOp) → Decidable op.wf
  | .openD _ => .isTrue True.intro
  | .closeD _ => .isTrue True.intro
  | .readD _ _ fr => inferInstanceAs (Decidable (0 ≤ fr))
  | .seekD _ _ => .isTrue True.intro

/-- Effect of one decoder API call on the table. -/
def decStep (t : List Decoder) : DecOp → List Decoder
  | .openD src => (jove_decoder_open t src).2
  | .closeD idx => jove_decoder_close t idx
  | .readD idx max_frames fr => (jove_decoder_read t idx max_frames fr).2
  | .seekD idx frame => jove_decoder_seek t idx frame

/-- Run a sequence of decoder API calls from a table state. -/
def decRun (t : List Decoder) (ops : List DecOp) : List Decoder := ops.foldl decStep t

/-- Every slot's `position` field is non-negative. -/
def posInv (t : List Decoder) : Prop := ∀ d ∈ t, 0 ≤ d.position

/-! ## Batched step (`jove_World_UpdateFull`, `box2d_jove.c`)

The foreign step and event retrieval (`b2World_Step`, `b2World_GetBodyEvents`,
`b2World_GetContactEvents`) are oracles: the pending event lists after the
step are inputs. Scalar event payloads are floats in C and are only copied, so
they are modelled by an arbitrary type `α`; foreign rotation values by a type
`ρ` with `b2Rot_GetAngle : ρ → α` given; foreign shape ids by a type `σ` with
`b2Shape_GetUserData : σ → Int` given. Output arrays are caller memory,
modelled as functions from index to content. -/

/-- A `b2BodyMoveEvent`: the moved body's user-data annotation and its new
transform (position and rotation). -/
structure B2BodyMoveEvent (ρ α : Type) where
  userData : Int
  px : α
  py : α
  q : ρ

/-- A contact begin/end event: the two foreign shape ids. -/
structure B2ContactPair (σ : Type) where
  shapeIdA : σ
  shapeIdB : σ

/-- A `b2ContactHitEvent`: the two foreign shape ids, the contact normal and
point, and the approach speed. -/
structure B2ContactHitEvent (σ α : Type) where
  shapeIdA : σ
  shapeIdB : σ
  normX : α
  normY : α
  pointX : α
  pointY : α
  approachSpeed : α

/-- The foreign system's pending events for this step, as returned by
`b2World_GetBodyEvents` (`moveEvents`/`moveCount`) and
`b2World_GetContactEvents` (`beginEvents`/`beginCount`, `endEvents`/`endCount`,
`hitEvents`/`hitCount`); each count is the list's length. -/
structure B2Events (ρ σ α : Type) where
  moveEvents : List (B2BodyMoveEvent ρ α)
  beginEvents : List (B2ContactPair σ)
  endEvents : List (B2ContactPair σ)
  hitEvents : List (B2ContactHitEvent σ α)

/-- The caller-supplied output arrays of `jove_World_UpdateFull` (each is the
array's full contents, indexed from 0) together with the counts array. -/
structure UpdateArrays (α : Type) where
  moveBodyIdx : Nat → Int
  movePosX : Nat → α
  movePosY : Nat → α
  moveAngle : Nat → α
  beginShapeA : Nat → Int
  beginShapeB : Nat → Int
  endShapeA : Nat → Int
  endShapeB : Nat → Int
  hitShapeA : Nat → Int
  hitShapeB : Nat → Int
  hitNormX : Nat → α
  hitNormY : Nat → α
  hitPointX : Nat → α
  hitPointY : Nat → α
  hitSpeed : Nat → α
  outCounts : Nat → Int

/-- The truncated per-category count `n`, written exactly as in the source:
`avail < cap ? avail : cap`. -/
def clampCount (avail cap : Int) : Int := if avail < cap then avail else cap

/-- Write `vals` into the array `init` starting at index 0: the `for` loop
`for (i = 0; i < n; i++) out[i] = ...` with `vals` the `n` written values. -/
def writeList {γ : Type} (init : Nat → γ) (vals : List γ) : Nat → γ :=
  fun j => if h : j < vals.length then vals.get ⟨j, h⟩ else init j

/-- `jove_World_UpdateFull`, after the foreign step: for each category clamp
the pending count to the caller capacity, copy that many events (resolving
every foreign reference through its user-data annotation, and for moves
applying `b2Rot_GetAngle` to the rotation) into the parallel output arrays
starting at index 0, and record the four clamped counts in
`outCounts[0..3]`. -/
def jove_World_UpdateFull {ρ σ α : Type}
    (b2Rot_GetAngle : ρ → α) (b2Shape_GetUserData : σ → Int)
    (ev : B2Events ρ σ α) (maxMove maxBegin maxEnd maxHit : Int)
    (a : UpdateArrays α) : UpdateArrays α :=
  let mc := clampCount (ev.moveEvents.length : Int) maxMove
  let bc := clampCount (ev.beginEvents.length : Int) maxBegin
  let ec := clampCount (ev.endEvents.length : Int) maxEnd
  let hc := clampCount (ev.hitEvents.length : Int) maxHit
  let moves := ev.moveEvents.take mc.toNat
  let begins := ev.beginEvents.take bc.toNat
  let ends := ev.endEvents.take ec.toNat
  let hits := ev.hitEvents.take hc.toNat
  { moveBodyIdx := writeList a.moveBodyIdx (moves.map fun e => recoverHandle e.userData)
    movePosX := writeList a.movePosX (moves.map fun e => e.px)
    movePosY := writeList a.movePosY (moves.map fun e => e.py)
    moveAngle := writeList a.moveAngle (moves.map fun e => b2Rot_GetAngle e.q)
    beginShapeA := writeList a.beginShapeA
      (begins.map fun e => recoverHandle (b2Shape_GetUserData e.shapeIdA))
    beginShapeB := writeList a.beginShapeB
      (begins.map fun e => recoverHandle (b2Shape_GetUserData e.shapeIdB))
    endShapeA := writeList a.endShapeA
      (ends.map fun e => recoverHandle (b2Shape_GetUserData e.shapeIdA))
    endShapeB := writeList a.endShapeB
      (ends.map fun e => recoverHandle (b2Shape_GetUserData e.shapeIdB))
    hitShapeA := writeList a.hitShapeA
      (hits.map fun e => recoverHandle (b2Shape_GetUserData e.shapeIdA))
    hitShapeB := writeList a.hitShapeB
      (hits.map fun e => recoverHandle (b2Shape_GetUserData e.shapeIdB))
    hitNormX := writeList a.hitNormX (hits.map fun e => e.normX)
    hitNormY := writeList a.hitNormY (hits.map fun e => e.normY)
    hitPointX := writeList a.hitPointX (hits.map fun e => e.pointX)
    hitPointY := writeList a.hitPointY (hits.map fun e => e.pointY)
    hitSpeed := writeList a.hitSpeed (hits.map fun e => e.approachSpeed)
    outCounts := fun j =>
      if j = 0 then mc else if j = 1 then bc else if j = 2 then ec
      else if j = 3 then hc else a.outCounts j }

/-! ## Shared helper lemmas -/

theorem natToBytes_bytesToNat (bs : List Nat) (hb : ∀ b ∈ bs, b < 256) :
    natToBytes bs.length (bytesToNat bs) = bs := by
  induction bs with
  | nil => rfl
  | cons b rest ih =>
    have hb0 : b < 256 := hb b (List.mem_cons_self b rest)
    have hmod : (b + 256 * bytesToNat rest) % 256 = b := by omega
    have hdiv : (b + 256 * bytesToNat rest) / 256 = bytesToNat rest := by omega
    simp only [List.length_cons, bytesToNat, natToBytes, hmod, hdiv, List.cons.injEq, true_and]
    exact ih fun x hx => hb x (List.mem_cons_of_mem b hx)

theorem bytesToNat_lt (bs : List Nat) (hb : ∀ b ∈ bs, b < 256) :
    bytesToNat bs < 256 ^ bs.length := by
  induction bs with
  | nil => simp [bytesToNat]
  | cons b rest ih =>
    have hb0 : b < 256 := hb b (List.mem_cons_self b rest)
    have hr : bytesToNat rest < 256 ^ rest.length :=
      ih fun x hx => hb x (List.mem_cons_of_mem b hx)
    have : 256 ^ (b :: rest).length = 256 * 256 ^ rest.length := by
      rw [List.length_cons, pow_succ, mul_comm]
    rw [this, bytesToNat]
    omega

theorem List_set_getD {α : Type} (l : List α) (n : Nat) (d : α) :
    l.set n (l.getD n d) = l := by
  induction l generalizing n with
  | nil => rfl
  | cons a rest ih =>
    cases n with
    | zero => simp [List.getD_cons_zero]
    | succ m =>
      simp only [List.getD_cons_succ, List.set]
      rw [ih m]

theorem posInv_getD {t : List Decoder} (h : posInv t) (n : Nat) :
    0 ≤ (t.getD n zeroDecoder).position := by
  by_cases hn : n < t.length
  · rw [List.getD_eq_getElem t zeroDecoder hn]
    exact h _ (List.getElem_mem hn)
  · rw [List.getD_eq_default t zeroDecoder (by omega)]
    exact le_refl 0

theorem firstIdxWhere_spec {α : Type} {p : α → Bool} {l : List α} {n : Nat}
    (h : firstIdxWhere p l = some n) :
    ∃ hn : n < l.length, p (l.get ⟨n, hn⟩) = true := by
  induction l generalizing n with
  | nil => simp [firstIdxWhere] at h
  | cons a rest ih =>
    rw [firstIdxWhere] at h
    by_cases ha : p a
    · rw [if_pos ha, Option.some.injEq] at h
      subst h
      exact ⟨by simp, ha⟩
    · rw [if_neg ha] at h
      cases hm : firstIdxWhere p rest with
      | none => rw [hm] at h; simp at h
      | some m =>
        rw [hm, Option.map_some'] at h
        obtain ⟨hml, hmp⟩ := ih hm
        have hn : n = m + 1 := by
          rw [Option.some.injEq] at h
          omega
        subst hn
        exact ⟨by simpa using hml, by simpa using hmp⟩

theorem firstIdxWhere_eq_some {α : Type} {p : α → Bool} (l : List α) (n : Nat)
    (hn : n < l.length)
    (hbelow : ∀ j, j < n → ∀ hj : j < l.length, p (l.get ⟨j, hj⟩) = false)
    (hp : p (l.get ⟨n, hn⟩) = true) :
    firstIdxWhere p l = some n := by
  induction l generalizing n with
  | nil => simp at hn
  | cons a rest ih =>
    cases n with
    | zero =>
      rw [firstIdxWhere, if_pos (by simpa using hp)]
    | succ m =>
      have ha : p a = false := hbelow 0 (by omega) (by simp)
      rw [firstIdxWhere, if_neg (by simp [ha])]
      have hm : firstIdxWhere p rest = some m := by
        apply ih m (by simpa using hn)
        · intro j hj hjl
          have := hbelow (j + 1) (by omega) (by simpa using hjl)
          simpa using this
        · simpa using hp
      rw [hm, Option.map_some']

theorem firstIdxWhere_set {α : Type} {p : α → Bool} (l : List α) (n : Nat) (v : α)
    (h : ∀ hn : n < l.length, p (l.get ⟨n, hn⟩) = p v) :
    firstIdxWhere p (l.set n v) = firstIdxWhere p l := by
  induction l generalizing n with
  | nil => rfl
  | cons a rest ih =>
    cases n with
    | zero =>
      have : p a = p v := h (by simp)
      simp only [List.set]
      rw [firstIdxWhere, firstIdxWhere, this]
    | succ m =>
      simp only [List.set]
      rw [firstIdxWhere, firstIdxWhere]
      by_cases ha : p a
      · rw [if_pos ha, if_pos ha]
      · rw [if_neg ha, if_neg ha, ih m (fun hm => h (by simpa using hm))]

/-! ## C9: identifier codec round trip -/

/-- C9: the identifier codec is a lossless bijection on produced values:
`unpack_world (pack_world w) = w` byte-for-byte for every 4-byte `b2WorldId`,
`unpack_joint (pack_joint j) = j` byte-for-byte for every 8-byte `b2JointId`,
and the packed value fits in the foreign identifier's width, so every byte of
the primitive above that width is zero. -/
theorem codec_roundtrip (w j : List Nat)
    (hw : w.length = 4) (hwb : ∀ b ∈ w, b < 256)
    (hj : j.length = 8) (hjb : ∀ b ∈ j, b < 256) :
    unpack_world (pack_world w) = w ∧ unpack_joint (pack_joint j) = j ∧
    pack_world w < 256 ^ 4 ∧ pack_joint j < 256 ^ 8 := by
  refine ⟨?_, ?_, ?_, ?_⟩
  · rw [unpack_world, pack_world, ← hw]
    exact natToBytes_bytesToNat w hwb
  · rw [unpack_joint, pack_joint, ← hj]
    exact natToBytes_bytesToNat j hjb
  · rw [pack_world, ← hw]
    exact bytesToNat_lt w hwb
  · rw [pack_joint, ← hj]
    exact bytesToNat_lt j hjb

/-- Witness for C9 at concrete byte lists. -/
theorem codec_roundtrip_witness :
    unpack_world (pack_world [1, 2, 3, 4]) = [1, 2, 3, 4] ∧
    unpack_joint (pack_joint [5, 0, 255, 7, 1, 2, 3, 9]) = [5, 0, 255, 7, 1, 2, 3, 9] ∧
    pack_world [1, 2, 3, 4] < 256 ^ 4 ∧
    pack_joint [5, 0, 255, 7, 1, 2, 3, 9] < 256 ^ 8 :=
  codec_roundtrip [1, 2, 3, 4] [5, 0, 255, 7, 1, 2, 3, 9]
    (by decide) (by decide) (by decide) (by decide)

/-! ## C2: tag round trip -/

/-- C2 counterexample: creating a chain shape — a shape creation call — under
handle 0 stores no tag in the foreign object's user-data annotation (the
`b2ChainDef.userData` field is left at its default 0), so a later recovery of
that annotation yields the sentinel -1, not the handle 0. This falsifies "the
creation call stores h+1" for `jove_CreateChainShape`. -/
theorem chain_tag_counterexample :
    let st0 : ShapeTable :=
      { free := [], nextIdx := 0, userData := fun _ => 0, isChain := fun _ => 0 }
    let r := jove_CreateChainShape st0
    r.1 = 0 ∧ r.2.userData 0 = 0 ∧ recoverHandle (r.2.userData 0) = -1 ∧
    recoverHandle (r.2.userData 0) ≠ 0 := by
  decide

/-- C2 (amended): `jove_CreateBody` and the non-chain shape creators
(`jove_CreateCircleShape`, and identically Box/Polygon/Edge) store `h + 1` in
the created foreign object's user-data annotation, and every recovery of that
annotation (the shared `ud ? ud - 1 : -1` idiom of the batched events, the
ray-cast and AABB callbacks and `jove_Shape_GetBody`) yields exactly `h`;
`jove_CreateChainShape` stores no tag (annotation 0), and an annotation of 0
resolves to the sentinel -1. -/
theorem tag_roundtrip_amended (bt : BodyTable) (st st' : ShapeTable)
    (hb : 0 ≤ (jove_CreateBody bt).1)
    (hc : 0 ≤ (jove_CreateCircleShape st).1)
    (hch : 0 ≤ (jove_CreateChainShape st').1) :
    ((jove_CreateBody bt).2.userData (jove_CreateBody bt).1 = (jove_CreateBody bt).1 + 1 ∧
      recoverHandle ((jove_CreateBody bt).2.userData (jove_CreateBody bt).1) =
        (jove_CreateBody bt).1) ∧
    ((jove_CreateCircleShape st).2.userData (jove_CreateCircleShape st).1 =
        (jove_CreateCircleShape st).1 + 1 ∧
      recoverHandle ((jove_CreateCircleShape st).2.userData (jove_CreateCircleShape st).1) =
        (jove_CreateCircleShape st).1) ∧
    ((jove_CreateChainShape st').2.userData (jove_CreateChainShape st').1 = 0 ∧
      recoverHandle ((jove_CreateChainShape st').2.userData (jove_CreateChainShape st').1) =
        -1) ∧
    recoverHandle 0 = -1 := by
  have hbody : (jove_CreateBody bt).2.userData (jove_CreateBody bt).1 =
      (jove_CreateBody bt).1 + 1 := by
    simp only [jove_CreateBody] at hb ⊢
    by_cases h0 : (alloc_body bt).1 < 0
    · simp only [if_pos h0] at hb; omega
    · simp [if_neg h0]
  have hcirc : (jove_CreateCircleShape st).2.userData (jove_CreateCircleShape st).1 =
      (jove_CreateCircleShape st).1 + 1 := by
    simp only [jove_CreateCircleShape] at hc ⊢
    by_cases h0 : (alloc_shape st).1 < 0
    · simp only [if_pos h0] at hc; omega
    · simp [if_neg h0]
  have hchain : (jove_CreateChainShape st').2.userData (jove_CreateChainShape st').1 = 0 := by
    simp only [jove_CreateChainShape] at hch ⊢
    by_cases h0 : (alloc_shape st').1 < 0
    · simp only [if_pos h0] at hch; omega
    · simp [if_neg h0]
  refine ⟨⟨hbody, ?_⟩, ⟨hcirc, ?_⟩, ⟨hchain, ?_⟩, by rw [recoverHandle, if_pos rfl]⟩
  · rw [hbody, recoverHandle, if_neg (by omega)]
    omega
  · rw [hcirc, recoverHandle, if_neg (by omega)]
    omega
  · rw [hchain, recoverHandle, if_pos rfl]

/-- Witness for C2 (amended) at fresh tables: the first created body and
circle shape get handle 0 with annotation 1, recovered as 0. -/
theorem tag_roundtrip_amended_witness :
    let bt : BodyTable := { free := [], nextIdx := 0, userData := fun _ => 0 }
    let st : ShapeTable :=
      { free := [], nextIdx := 0, userData := fun _ => 0, isChain := fun _ => 0 }
    ((jove_CreateBody bt).2.userData (jove_CreateBody bt).1 = (jove_CreateBody bt).1 + 1 ∧
      recoverHandle ((jove_CreateBody bt).2.userData (jove_CreateBody bt).1) =
        (jove_CreateBody bt).1) ∧
    ((jove_CreateCircleShape st).2.userData (jove_CreateCircleShape st).1 =
        (jove_CreateCircleShape st).1 + 1 ∧
      recoverHandle ((jove_CreateCircleShape st).2.userData (jove_CreateCircleShape st).1) =
        (jove_CreateCircleShape st).1) ∧
    ((jove_CreateChainShape st).2.userData (jove_CreateChainShape st).1 = 0 ∧
      recoverHandle ((jove_CreateChainShape st).2.userData (jove_CreateChainShape st).1) =
        -1) ∧
    recoverHandle 0 = -1 :=
  tag_roundtrip_amended _ _ _ (by decide) (by decide) (by decide)

/-! ## C5: double free -/

/-- C5 counterexample: on a fresh body table, allocate index 0, free it twice
with no intervening allocation, and the next two allocations both return 0 —
the free list held 0 twice, so double-free is neither a no-op nor a reported
error, and the freed-slot invariant is not preserved. -/
theorem double_free_counterexample :
    let bt0 : BodyTable := { free := [], nextIdx := 0, userData := fun _ => 0 }
    let s1 := (alloc_body bt0).2
    let s2 := free_body (free_body s1 0) 0
    (alloc_body bt0).1 = 0 ∧ s2.free = [0, 0] ∧
    (alloc_body s2).1 = 0 ∧ (alloc_body (alloc_body s2).2).1 = 0 := by
  decide

/-- C5 (amended): `free_body` and `free_shape` perform no double-free
detection: any in-range index is pushed unconditionally while the stack has
room, so after `free(h); free(h)` with no intervening allocation the next two
allocations both return `h`. The free call itself never faults: for an
out-of-range index (or a full stack) it is a no-op. -/
theorem double_free_amended (bt : BodyTable) (st : ShapeTable) (h hs i : Int)
    (hb0 : 0 ≤ h) (hb1 : h < MAX_BODIES) (hb2 : (bt.free.length : Int) + 1 < MAX_BODIES)
    (hs0 : 0 ≤ hs) (hs1 : hs < MAX_SHAPES) (hs2 : (st.free.length : Int) + 1 < MAX_SHAPES)
    (hi : ¬(0 ≤ i ∧ i < MAX_BODIES)) :
    (free_body (free_body bt h) h).free = h :: h :: bt.free ∧
    (alloc_body (free_body (free_body bt h) h)).1 = h ∧
    (alloc_body (alloc_body (free_body (free_body bt h) h)).2).1 = h ∧
    (free_shape (free_shape st hs) hs).free = hs :: hs :: st.free ∧
    (alloc_shape (free_shape (free_shape st hs) hs)).1 = hs ∧
    (alloc_shape (alloc_shape (free_shape (free_shape st hs) hs)).2).1 = hs ∧
    free_body bt i = bt := by
  have hf1 : free_body bt h = { bt with free := h :: bt.free } := by
    rw [free_body, if_pos ⟨hb0, hb1, by omega⟩]
  have hf2 : free_body { bt with free := h :: bt.free } h =
      { bt with free := h :: h :: bt.free } := by
    rw [free_body, if_pos ⟨hb0, hb1, by simp; omega⟩]
  have hg1 : free_shape st hs = { st with free := hs :: st.free } := by
    rw [free_shape, if_pos ⟨hs0, hs1, by omega⟩]
  have hg2 : free_shape { st with free := hs :: st.free } hs =
      { st with free := hs :: hs :: st.free } := by
    rw [free_shape, if_pos ⟨hs0, hs1, by simp; omega⟩]
  refine ⟨?_, ?_, ?_, ?_, ?_, ?_, ?_⟩
  · rw [hf1, hf2]
  · rw [hf1, hf2]; rfl
  · rw [hf1, hf2]; rfl
  · rw [hg1, hg2]
  · rw [hg1, hg2]; rfl
  · rw [hg1, hg2]; rfl
  · rw [free_body, if_neg fun hcon => hi ⟨hcon.1, hcon.2.1⟩]

/-- Witness for C5 (amended) at a fresh table with h = 3 and the out-of-range
index -2. -/
theorem double_free_amended_witness :
    let bt : BodyTable := { free := [], nextIdx := 4, userData := fun _ => 0 }
    let st : ShapeTable :=
      { free := [], nextIdx := 4, userData := fun _ => 0, isChain := fun _ => 0 }
    (free_body (free_body bt 3) 3).free = [3, 3] ∧
    (alloc_body (free_body (free_body bt 3) 3)).1 = 3 ∧
    (alloc_body (alloc_body (free_body (free_body bt 3) 3)).2).1 = 3 ∧
    (free_shape (free_shape st 3) 3).free = [3, 3] ∧
    (alloc_shape (free_shape (free_shape st 3) 3)).1 = 3 ∧
    (alloc_shape (alloc_shape (free_shape (free_shape st 3) 3)).2).1 = 3 ∧
    free_body bt (-2) = bt := by
  have := double_free_amended
    { free := [], nextIdx := 4, userData := fun _ => 0 }
    { free := [], nextIdx := 4, userData := fun _ => 0, isChain := fun _ => 0 }
    3 3 (-2) (by decide) (by decide) (by decide) (by decide) (by decide) (by decide)
    (by decide)
  simpa using this

/-! ## C4: alloc/free round trip -/

/-- C4 counterexample: the decoder table does not reuse the most recently
freed index. Open two decoders (handles 0 and 1), close 0, then close 1, and
the very next open — immediately after freeing exactly handle 1, with nothing
in between — returns 0, not 1: the scan takes the lowest free slot, not the
most recently freed one. -/
theorem lifo_counterexample :
    let i : AudioInfo := { channels := 2, sample_rate := 44100, total_frames := 100 }
    let o1 := jove_decoder_open decInit (.ogg (some i))
    let o2 := jove_decoder_open o1.2 (.ogg (some i))
    let t4 := jove_decoder_close (jove_decoder_close o2.2 0) 1
    let o5 := jove_decoder_open t4 (.ogg (some i))
    o1.1 = 0 ∧ o2.1 = 1 ∧ o5.1 = 0 ∧ o5.1 ≠ 1 := by
  decide

/-- C4 (amended): the bodies and shapes tables are LIFO — allocating
immediately after freeing one handle returns that same index, and an
allocation served from a non-empty free list does not move the high-water
mark. The decoder (and video) tables instead scan for the lowest-numbered
free slot, with no free list and no high-water mark: re-opening immediately
after closing handle `dh` returns `dh` only when every lower slot is
occupied. -/
theorem alloc_lifo_amended (bt : BodyTable) (st : ShapeTable) (h hs : Int)
    (hb0 : 0 ≤ h) (hb1 : h < MAX_BODIES) (hb2 : (bt.free.length : Int) < MAX_BODIES)
    (hs0 : 0 ≤ hs) (hs1 : hs < MAX_SHAPES) (hs2 : (st.free.length : Int) < MAX_SHAPES)
    (t : List Decoder) (dh : Int) (info : AudioInfo) (hlen : t.length = 32)
    (hd0 : 0 ≤ dh) (hd1 : dh < MAX_DECODERS)
    (hbelow : ∀ j, j < dh.toNat → (t.getD j zeroDecoder).type ≠ 0) :
    (alloc_body (free_body bt h)).1 = h ∧
    (alloc_shape (free_shape st hs)).1 = hs ∧
    (bt.free ≠ [] → (alloc_body bt).2.nextIdx = bt.nextIdx) ∧
    (jove_decoder_open (jove_decoder_close t dh) (.ogg (some info))).1 = dh := by
  refine ⟨?_, ?_, ?_, ?_⟩
  · rw [free_body, if_pos ⟨hb0, hb1, hb2⟩]; rfl
  · rw [free_shape, if_pos ⟨hs0, hs1, hs2⟩]; rfl
  · intro hne
    rcases hfr : bt.free with _ | ⟨a, l⟩
    · exact absurd hfr hne
    · rw [alloc_body, hfr]
  · have h32 : MAX_DECODERS = 32 := rfl
    have hdn : dh.toNat < t.length := by omega
    have hrange : ¬(dh < 0 ∨ MAX_DECODERS ≤ dh) := by
      rw [h32] at hd1 ⊢
      omega
    rw [jove_decoder_close, if_neg hrange]
    have hscan : firstIdxWhere (fun d => d.type == 0)
        (t.set dh.toNat { decGet t dh with type := 0 }) = some dh.toNat := by
      apply firstIdxWhere_eq_some _ dh.toNat (by simpa using hdn)
      · intro j hj hjl
        have hne : dh.toNat ≠ j := by omega
        have hjl' : j < t.length := by simpa using hjl
        have : (t.set dh.toNat { decGet t dh with type := 0 }).get ⟨j, hjl⟩ =
            t.get ⟨j, hjl'⟩ := by
          simp only [List.get_eq_getElem]
          exact List.getElem_set_ne hne _
        rw [this]
        have hb := hbelow j hj
        rw [List.getD_eq_getElem t zeroDecoder hjl'] at hb
        simpa using hb
      · have : (t.set dh.toNat { decGet t dh with type := 0 }).get
            ⟨dh.toNat, by simpa using hdn⟩ = { decGet t dh with type := 0 } := by
          simp only [List.get_eq_getElem]
          exact List.getElem_set_self (by simpa using hdn)
        rw [this]
        simp
    rw [jove_decoder_open, hscan]
    simp only []
    omega

/-- Witness for C4 (amended): a fresh body table with h = 3, a fresh shape
table with hs = 5, and a decoder table with slot 0 open, close-then-open of
handle 1. -/
theorem alloc_lifo_amended_witness :
    let bt : BodyTable := { free := [7], nextIdx := 9, userData := fun _ => 0 }
    let st : ShapeTable :=
      { free := [], nextIdx := 2, userData := fun _ => 0, isChain := fun _ => 0 }
    let t := (jove_decoder_open decInit
      (.ogg (some { channels := 2, sample_rate := 44100, total_frames := 100 }))).2
    let info : AudioInfo := { channels := 1, sample_rate := 8000, total_frames := 5 }
    (alloc_body (free_body bt 3)).1 = 3 ∧
    (alloc_shape (free_shape st 5)).1 = 5 ∧
    (alloc_body bt).2.nextIdx = bt.nextIdx ∧
    (jove_decoder_open (jove_decoder_close t 1) (.ogg (some info))).1 = 1 :=
  have h := alloc_lifo_amended
    { free := [7], nextIdx := 9, userData := fun _ => 0 }
    { free := [], nextIdx := 2, userData := fun _ => 0, isChain := fun _ => 0 }
    3 5 (by decide) (by decide) (by decide) (by decide) (by decide) (by decide)
    ((jove_decoder_open decInit
      (.ogg (some { channels := 2, sample_rate := 44100, total_frames := 100 }))).2)
    1 { channels := 1, sample_rate := 8000, total_frames := 5 }
    (by decide) (by decide) (by decide) (by decide)
  ⟨h.1, h.2.1, h.2.2.1 (by decide), h.2.2.2⟩

/-! ## C1: invalid-handle behavior -/

/-- C1 counterexample: open a stereo decoder at handle 0, seek it to frame 50,
then close it. The slot is closed (`type = 0`), the index is in range, yet
`jove_decoder_get_info` reports the stale metadata `(2, 44100, 100)` — not
zeros — and `jove_decoder_tell` reports the stale position 50, because
`jove_decoder_close` resets only the `type` field. -/
theorem stale_info_counterexample :
    let o1 := jove_decoder_open decInit
      (.ogg (some { channels := 2, sample_rate := 44100, total_frames := 100 }))
    let t3 := jove_decoder_close (jove_decoder_seek o1.2 0 50) 0
    o1.1 = 0 ∧ (decGet t3 0).type = 0 ∧
    jove_decoder_get_info t3 0 = (2, 44100, 100) ∧
    jove_decoder_get_info t3 0 ≠ (0, 0, 0) ∧
    jove_decoder_tell t3 0 = 50 ∧ jove_decoder_tell t3 0 ≠ 0 := by
  decide

/-- C1 (amended): in the decoder and video tables every handle-qualified
operation bounds-checks the index — on an out-of-range index the mutators
(`jove_decoder_seek`, `jove_decoder_read`, `jove_decoder_close`,
`jove_video_close`, `jove_video_play`) are silent no-ops and the queries
(`jove_decoder_get_info`, `jove_decoder_tell`, `jove_video_get_width`) return
zeros; video queries also return zero for an in-range unoccupied slot. But on
an in-range handle `jove_decoder_get_info` and `jove_decoder_tell` return the
slot's stored fields whatever they are: zeros for a never-opened slot, stale
pre-close values for a closed one. (The `jove_Body_*` / `jove_Shape_*`
wrappers perform no index validation at all; an out-of-range index there
indexes the C arrays out of bounds and has no defined result.) -/
theorem invalid_handle_amended (t t2 : List Decoder) (vt : List VideoSlot)
    (idx vidx vjdx jdx frame mf fr : Int)
    (hout : idx < 0 ∨ MAX_DECODERS ≤ idx)
    (hvout : vidx < 0 ∨ MAX_VIDEOS ≤ vidx)
    (hj : ¬(jdx < 0 ∨ MAX_DECODERS ≤ jdx))
    (hvj : ¬(vjdx < 0 ∨ MAX_VIDEOS ≤ vjdx))
    (hunocc : (vidGet vt vjdx).plm = false) :
    jove_decoder_get_info t idx = (0, 0, 0) ∧
    jove_decoder_tell t idx = 0 ∧
    jove_decoder_seek t idx frame = t ∧
    jove_decoder_read t idx mf fr = (0, t) ∧
    jove_decoder_close t idx = t ∧
    jove_video_close vt vidx = vt ∧
    jove_video_play vt vidx = vt ∧
    jove_video_get_width vt vidx = 0 ∧
    jove_video_play vt vjdx = vt ∧
    jove_video_get_width vt vjdx = 0 ∧
    jove_decoder_get_info t2 jdx =
      ((decGet t2 jdx).channels, (decGet t2 jdx).sample_rate, (decGet t2 jdx).total_frames) ∧
    jove_decoder_tell t2 jdx = (decGet t2 jdx).position := by
  refine ⟨?_, ?_, ?_, ?_, ?_, ?_, ?_, ?_, ?_, ?_, ?_, ?_⟩
  · rw [jove_decoder_get_info, if_pos hout]
  · rw [jove_decoder_tell, if_pos hout]
  · rw [jove_decoder_seek, if_pos hout]
  · rw [jove_decoder_read, if_pos hout]
  · rw [jove_decoder_close, if_pos hout]
  · rw [jove_video_close, if_pos hvout]
  · rw [jove_video_play, if_pos hvout]
  · rw [jove_video_get_width, if_pos hvout]
  · rw [jove_video_play, if_neg hvj]
    simp [hunocc]
  · rw [jove_video_get_width, if_neg hvj]
    simp [hunocc]
  · rw [jove_decoder_get_info, if_neg hj]
  · rw [jove_decoder_tell, if_neg hj]

/-- Witness for C1 (amended): the out-of-range index 40 against a table with
slot 0 open, the out-of-range video index -1 against the fresh video table,
and the in-range index 0. -/
theorem invalid_handle_amended_witness :
    let t := (jove_decoder_open decInit
      (.ogg (some { channels := 2, sample_rate := 44100, total_frames := 100 }))).2
    jove_decoder_get_info t 40 = (0, 0, 0) ∧
    jove_decoder_tell t 40 = 0 ∧
    jove_decoder_seek t 40 7 = t ∧
    jove_decoder_read t 40 10 4 = (0, t) ∧
    jove_decoder_close t 40 = t ∧
    jove_video_close vidInit (-1) = vidInit ∧
    jove_video_play vidInit (-1) = vidInit ∧
    jove_video_get_width vidInit (-1) = 0 ∧
    jove_video_play vidInit 2 = vidInit ∧
    jove_video_get_width vidInit 2 = 0 ∧
    jove_decoder_get_info t 0 =
      ((decGet t 0).channels, (decGet t 0).sample_rate, (decGet t 0).total_frames) ∧
    jove_decoder_tell t 0 = (decGet t 0).position :=
  invalid_handle_amended
    ((jove_decoder_open decInit
      (.ogg (some { channels := 2, sample_rate := 44100, total_frames := 100 }))).2)
    ((jove_decoder_open decInit
      (.ogg (some { channels := 2, sample_rate := 44100, total_frames := 100 }))).2)
    vidInit 40 (-1) 2 0 7 10 4
    (by decide) (by decide) (by decide) (by decide) (by decide)

/-! ## C8: idempotent close -/

/-- C8 counterexample: `jove_DestroyBody` has no occupancy or range guard.
Create a body at index 0, destroy it twice, and the free list holds 0 twice,
so the next two allocations both return 0 — the table is corrupted, falsifying
"the same holds for destroying an already-destroyed physics body index" (each
destroy also hands the stale `g_bodies[0]` id to the foreign
`b2DestroyBody`). -/
theorem destroy_twice_counterexample :
    let bt0 : BodyTable := { free := [], nextIdx := 0, userData := fun _ => 0 }
    let s1 := (jove_CreateBody bt0).2
    let s2 := jove_DestroyBody (jove_DestroyBody s1 0) 0
    (jove_CreateBody bt0).1 = 0 ∧ s2.free = [0, 0] ∧
    (alloc_body s2).1 = 0 ∧ (alloc_body (alloc_body s2).2).1 = 0 := by
  decide

/-- C8 (amended): closing an already-closed or never-opened decoder or video
handle is a safe no-op — for every in-range index whose slot is unoccupied,
`jove_decoder_close` and `jove_video_close` leave the table exactly unchanged
(so a subsequent open can still allocate the slot). Destroying a physics body
or shape index, however, is guarded by nothing: repeating it pushes the index
onto the free list again, after which two successive allocations return the
same index. -/
theorem idempotent_close_amended (t : List Decoder) (vt : List VideoSlot)
    (bt : BodyTable) (st : ShapeTable) (idx vidx h hs : Int)
    (hin : ¬(idx < 0 ∨ MAX_DECODERS ≤ idx)) (hcl : (decGet t idx).type = 0)
    (hvin : ¬(vidx < 0 ∨ MAX_VIDEOS ≤ vidx)) (hvcl : (vidGet vt vidx).plm = false)
    (hb0 : 0 ≤ h) (hb1 : h < MAX_BODIES) (hb2 : (bt.free.length : Int) + 1 < MAX_BODIES)
    (hs0 : 0 ≤ hs) (hs1 : hs < MAX_SHAPES) (hs2 : (st.free.length : Int) + 1 < MAX_SHAPES) :
    jove_decoder_close t idx = t ∧
    jove_video_close vt vidx = vt ∧
    (alloc_body (jove_DestroyBody (jove_DestroyBody bt h) h)).1 = h ∧
    (alloc_body (alloc_body (jove_DestroyBody (jove_DestroyBody bt h) h)).2).1 = h ∧
    (alloc_shape (jove_DestroyShape (jove_DestroyShape st hs) hs)).1 = hs ∧
    (alloc_shape (alloc_shape (jove_DestroyShape (jove_DestroyShape st hs) hs)).2).1 = hs := by
  have hf1 : free_body bt h = { bt with free := h :: bt.free } := by
    rw [free_body, if_pos ⟨hb0, hb1, by omega⟩]
  have hf2 : free_body { bt with free := h :: bt.free } h =
      { bt with free := h :: h :: bt.free } := by
    rw [free_body, if_pos ⟨hb0, hb1, by simp; omega⟩]
  have hg1 : free_shape st hs = { st with free := hs :: st.free } := by
    rw [free_shape, if_pos ⟨hs0, hs1, by omega⟩]
  have hg2 : free_shape { st with free := hs :: st.free } hs =
      { st with free := hs :: hs :: st.free } := by
    rw [free_shape, if_pos ⟨hs0, hs1, by simp; omega⟩]
  refine ⟨?_, ?_, ?_, ?_, ?_, ?_⟩
  · rw [jove_decoder_close, if_neg hin]
    have : { decGet t idx with type := 0 } = decGet t idx := by
      rcases hd : decGet t idx with ⟨ty, ch, sr, tf, p⟩
      rw [hd] at hcl
      simp at hcl
      rw [hcl]
    rw [this]
    exact List_set_getD t idx.toNat zeroDecoder
  · rw [jove_video_close, if_neg hvin]
    simp [hvcl]
  · rw [jove_DestroyBody, jove_DestroyBody, hf1, hf2]; rfl
  · rw [jove_DestroyBody, jove_DestroyBody, hf1, hf2]; rfl
  · rw [jove_DestroyShape, jove_DestroyShape, hg1, hg2]; rfl
  · rw [jove_DestroyShape, jove_DestroyShape, hg1, hg2]; rfl

/-- Witness for C8 (amended): close the never-opened decoder slot 5 and video
slot 3 of the fresh tables, and double-destroy body 2 and shape 6 on fresh
tables. -/
theorem idempotent_close_amended_witness :
    let bt : BodyTable := { free := [], nextIdx := 3, userData := fun _ => 0 }
    let st : ShapeTable :=
      { free := [], nextIdx := 7, userData := fun _ => 0, isChain := fun _ => 0 }
    jove_decoder_close decInit 5 = decInit ∧
    jove_video_close vidInit 3 = vidInit ∧
    (alloc_body (jove_DestroyBody (jove_DestroyBody bt 2) 2)).1 = 2 ∧
    (alloc_body (alloc_body (jove_DestroyBody (jove_DestroyBody bt 2) 2)).2).1 = 2 ∧
    (alloc_shape (jove_DestroyShape (jove_DestroyShape st 6) 6)).1 = 6 ∧
    (alloc_shape (alloc_shape (jove_DestroyShape (jove_DestroyShape st 6) 6)).2).1 = 6 :=
  idempotent_close_amended decInit vidInit
    { free := [], nextIdx := 3, userData := fun _ => 0 }
    { free := [], nextIdx := 7, userData := fun _ => 0, isChain := fun _ => 0 }
    5 3 2 6
    (by decide) (by decide) (by decide) (by decide) (by decide) (by decide)
    (by decide) (by decide) (by decide) (by decide)

/-! ## C7: open failure consumes no slot -/

/-- C7: when opening a streaming resource fails — no file extension, an
unrecognized extension, or the backend rejecting the source —
`jove_decoder_open` and `jove_video_open` return -1 and consume no slot:
every slot's occupancy (`type` for decoders, the `plm` pointer for videos) is
exactly what it was, and a subsequent open allocates the same slot it would
have allocated had the failed call never happened. -/
theorem open_failure (t : List Decoder) (src : AudioSource) (vt : List VideoSlot)
    (da : Int) (info : AudioInfo)
    (hsrc : src = .noExt ∨ src = .unknownExt ∨ src = .ogg none ∨ src = .mp3 none ∨
      src = .flac none) :
    (jove_decoder_open t src).1 = -1 ∧
    (∀ n, ((jove_decoder_open t src).2.getD n zeroDecoder).type =
      (t.getD n zeroDecoder).type) ∧
    ((jove_decoder_open (jove_decoder_open t src).2 (.ogg (some info))).1 =
      (jove_decoder_open t (.ogg (some info))).1) ∧
    jove_video_open vt .fail da = (-1, vt) := by
  have hvid : jove_video_open vt .fail da = (-1, vt) := by
    rcases hv : alloc_slot vt with _ | k <;> simp [jove_video_open, hv]
  rcases hs : firstIdxWhere (fun d => d.type == 0) t with _ | idx
  · have hopen : jove_decoder_open t src = (-1, t) := by
      rcases hsrc with rfl | rfl | rfl | rfl | rfl <;> simp [jove_decoder_open, hs]
    rw [hopen]
    exact ⟨rfl, fun n => rfl, rfl, hvid⟩
  · obtain ⟨hidx, hp⟩ := firstIdxWhere_spec hs
    have htype0 : (t.get ⟨idx, hidx⟩).type = 0 := by simpa using hp
    have hopen : (jove_decoder_open t src).1 = -1 ∧
        ((jove_decoder_open t src).2 = t ∨
          (jove_decoder_open t src).2 = t.set idx zeroDecoder) := by
      rcases hsrc with rfl | rfl | rfl | rfl | rfl <;>
        simp [jove_decoder_open, hs]
    refine ⟨hopen.1, ?_, ?_, hvid⟩
    · intro n
      rcases hopen.2 with h2 | h2
      · rw [h2]
      · rw [h2]
        by_cases hn : n = idx
        · subst hn
          rw [List.getD_eq_getElem _ zeroDecoder (by simpa using hidx),
            List.getD_eq_getElem t zeroDecoder hidx, List.getElem_set_self]
          simp only [List.get_eq_getElem] at htype0
          rw [htype0]
          rfl
        · have hne : (t.set idx zeroDecoder)[n]? = t[n]? :=
            List.getElem?_set_ne (fun hc => hn hc.symm)
          rw [List.getD_eq_getElem?_getD, List.getD_eq_getElem?_getD, hne]
    · have hsc : firstIdxWhere (fun d => d.type == 0) (t.set idx zeroDecoder) =
          firstIdxWhere (fun d => d.type == 0) t := by
        apply firstIdxWhere_set
        intro hn
        show ((t.get ⟨idx, hn⟩).type == 0) = (zeroDecoder.type == 0)
        have ht : (t.get ⟨idx, hn⟩).type = 0 := htype0
        rw [ht]
        rfl
      rcases hopen.2 with h2 | h2
      · rw [h2]
      · rw [h2, jove_decoder_open, jove_decoder_open, hsc, hs]

/-- Witness for C7: an unknown-extension open against the fresh decoder table
and a rejected video source against the fresh video table. -/
theorem open_failure_witness :
    (jove_decoder_open decInit .unknownExt).1 = -1 ∧
    ((jove_decoder_open decInit .unknownExt).2.getD 0 zeroDecoder).type =
      (decInit.getD 0 zeroDecoder).type ∧
    ((jove_decoder_open (jove_decoder_open decInit .unknownExt).2
        (.ogg (some { channels := 2, sample_rate := 44100, total_frames := 100 }))).1 =
      (jove_decoder_open decInit
        (.ogg (some { channels := 2, sample_rate := 44100, total_frames := 100 }))).1) ∧
    jove_video_open vidInit .fail 1 = (-1, vidInit) :=
  have h := open_failure decInit .unknownExt vidInit 1
    { channels := 2, sample_rate := 44100, total_frames := 100 }
    (Or.inr (Or.inl rfl))
  ⟨h.1, h.2.1 0, h.2.2.1, h.2.2.2⟩

/-! ## C6: streaming read clamp -/

/-- C6: for a decoder slot with channel count `c > 0`, and a backend that
returns at most the frame count it was asked for (`0 <= fr <=` the clamped
request), `jove_decoder_read` returns at most
`DECODER_READ_BUF_FRAMES * 2 / c` frames, and the 16-bit samples the backend
writes into `g_read_buf` (frames returned times `c`) never exceed the
buffer's capacity of `DECODER_READ_BUF_FRAMES * 2` samples, whatever was
requested. -/
theorem read_clamp (t : List Decoder) (idx max_frames fr : Int)
    (hch : 0 < (decGet t idx).channels) (_hfr0 : 0 ≤ fr)
    (hfr : fr ≤ readClampedRequest max_frames (decGet t idx).channels) :
    (jove_decoder_read t idx max_frames fr).1 ≤
      Int.tdiv (DECODER_READ_BUF_FRAMES * 2) (decGet t idx).channels ∧
    (jove_decoder_read t idx max_frames fr).1 * (decGet t idx).channels ≤
      DECODER_READ_BUF_FRAMES * 2 := by
  have hc := hch
  have h1 : 0 ≤ Int.tdiv (DECODER_READ_BUF_FRAMES * 2) (decGet t idx).channels :=
    Int.tdiv_nonneg (by norm_num [DECODER_READ_BUF_FRAMES]) (le_of_lt hc)
  have h2 : Int.tdiv (DECODER_READ_BUF_FRAMES * 2) (decGet t idx).channels *
      (decGet t idx).channels ≤ DECODER_READ_BUF_FRAMES * 2 := by
    rw [Int.tdiv_eq_ediv (by norm_num [DECODER_READ_BUF_FRAMES]) (le_of_lt hc)]
    exact Int.ediv_mul_le _ (by omega)
  have hfrb : fr ≤ Int.tdiv (DECODER_READ_BUF_FRAMES * 2) (decGet t idx).channels := by
    rw [readClampedRequest] at hfr
    split_ifs at hfr with hcmp
    · exact hfr
    · omega
  have hres : (jove_decoder_read t idx max_frames fr).1 = 0 ∨
      (jove_decoder_read t idx max_frames fr).1 = fr := by
    simp only [jove_decoder_read]
    split_ifs <;> simp
  have hbuf : (0 : Int) ≤ DECODER_READ_BUF_FRAMES * 2 := by
    norm_num [DECODER_READ_BUF_FRAMES]
  rcases hres with h0 | hf
  · rw [h0]
    exact ⟨h1, by simpa using hbuf⟩
  · rw [hf]
    refine ⟨hfrb, ?_⟩
    calc fr * (decGet t idx).channels
        ≤ Int.tdiv (DECODER_READ_BUF_FRAMES * 2) (decGet t idx).channels *
          (decGet t idx).channels :=
          mul_le_mul_of_nonneg_right hfrb (le_of_lt hc)
      _ ≤ DECODER_READ_BUF_FRAMES * 2 := h2

/-- Witness for C6: a stereo stream (2 channels) asked for 10000 frames with
the backend returning the full clamped request of 8192 frames: at most 8192
frames come back and at most 16384 samples are written. -/
theorem read_clamp_witness :
    let t := (jove_decoder_open decInit
      (.ogg (some { channels := 2, sample_rate := 44100, total_frames := 100000 }))).2
    (jove_decoder_read t 0 10000 8192).1 ≤
      Int.tdiv (DECODER_READ_BUF_FRAMES * 2) (decGet t 0).channels ∧
    (jove_decoder_read t 0 10000 8192).1 * (decGet t 0).channels ≤
      DECODER_READ_BUF_FRAMES * 2 :=
  read_clamp
    ((jove_decoder_open decInit
      (.ogg (some { channels := 2, sample_rate := 44100, total_frames := 100000 }))).2)
    0 10000 8192 (by decide) (by decide) (by decide)

/-! ## C10: the position field is never negative -/

theorem posInv_set {t : List Decoder} (hp : posInv t) {n : Nat} {v : Decoder}
    (hv : 0 ≤ v.position) : posInv (t.set n v) := by
  intro d hd
  rcases List.mem_or_eq_of_mem_set hd with h | h
  · exact hp d h
  · rw [h]; exact hv

theorem decStep_posInv {t : List Decoder} (hp : posInv t) (op : DecOp) (hwf : op.wf) :
    posInv (decStep t op) := by
  cases op with
  | openD src =>
    rw [decStep]
    rcases hs : firstIdxWhere (fun d => d.type == 0) t with _ | idx
    · simpa [jove_decoder_open, hs] using hp
    · cases src with
      | noExt => simpa [jove_decoder_open, hs] using hp
      | unknownExt =>
        simp only [jove_decoder_open, hs]
        exact posInv_set hp (by norm_num [zeroDecoder])
      | ogg r =>
        cases r with
        | none =>
          simp only [jove_decoder_open, hs]
          exact posInv_set hp (by norm_num [zeroDecoder])
        | some info =>
          simp only [jove_decoder_open, hs]
          exact posInv_set hp (by norm_num [openedDecoder])
      | mp3 r =>
        cases r with
        | none =>
          simp only [jove_decoder_open, hs]
          exact posInv_set hp (by norm_num [zeroDecoder])
        | some info =>
          simp only [jove_decoder_open, hs]
          exact posInv_set hp (by norm_num [openedDecoder])
      | flac r =>
        cases r with
        | none =>
          simp only [jove_decoder_open, hs]
          exact posInv_set hp (by norm_num [zeroDecoder])
        | some info =>
          simp only [jove_decoder_open, hs]
          exact posInv_set hp (by norm_num [openedDecoder])
  | closeD idx =>
    rw [decStep, jove_decoder_close]
    split_ifs with hr
    · exact hp
    · exact posInv_set hp (posInv_getD hp idx.toNat)
  | readD idx max_frames fr =>
    have hfr : 0 ≤ fr := hwf
    have hpos : 0 ≤ (decGet t idx).position := posInv_getD hp idx.toNat
    rw [decStep]
    simp only [jove_decoder_read]
    split_ifs <;>
      first
        | exact hp
        | exact posInv_set hp (by show 0 ≤ (decGet t idx).position + fr; omega)
  | seekD idx frame =>
    have hpos : 0 ≤ (decGet t idx).position := posInv_getD hp idx.toNat
    rw [decStep]
    simp only [jove_decoder_seek]
    split_ifs <;>
      first
        | exact hp
        | exact posInv_set hp (by show (0 : Int) ≤ 0; omega)
        | exact posInv_set hp (by show 0 ≤ frame; omega)

theorem decRun_posInv (ops : List DecOp) :
    ∀ t : List Decoder, posInv t → (∀ op ∈ ops, op.wf) → posInv (decRun t ops) := by
  induction ops with
  | nil => intro t ht _; exact ht
  | cons op rest ih =>
    intro t ht hop
    rw [decRun, List.foldl_cons]
    exact ih _ (decStep_posInv ht op (hop op (List.mem_cons_self op rest)))
      fun o ho => hop o (List.mem_cons_of_mem op ho)

/-- C10: starting from the zeroed decoder table, after any sequence of
open/close/read/seek calls in which every backend read reports a non-negative
frame count, every slot's `position` is non-negative. Open writes
`position = 0`; seek records the negative-clamped frame
(`if frame < 0 then 0 else frame`) for an open slot; read adds the backend's
non-negative count. -/
theorem position_nonneg (ops : List DecOp) (hwf : ∀ op ∈ ops, op.wf) :
    posInv (decRun decInit ops) ∧
    (∀ ty info, (openedDecoder ty info).position = 0) ∧
    (∀ (t : List Decoder) (idx frame : Int), ¬(idx < 0 ∨ MAX_DECODERS ≤ idx) →
      idx.toNat < t.length →
      ((decGet t idx).type = 1 ∨ (decGet t idx).type = 2 ∨ (decGet t idx).type = 3) →
      (decGet (jove_decoder_seek t idx frame) idx).position =
        if frame < 0 then 0 else frame) := by
  refine ⟨?_, fun ty info => rfl, ?_⟩
  · apply decRun_posInv ops decInit ?_ hwf
    intro d hd
    rw [decInit] at hd
    rw [List.eq_of_mem_replicate hd]
    exact le_refl 0
  · intro t idx frame hr hlt htype
    rw [jove_decoder_seek, if_neg hr, if_pos htype, decGet,
      List.getD_eq_getElem _ zeroDecoder (by simpa using hlt), List.getElem_set_self]

/-- Witness for C10: open a decoder, seek it to -5 (clamped to 0), read 4
frames, close it; every position in the resulting table is non-negative, and
the seek clamp is checked on the opened table at frame -7. -/
theorem position_nonneg_witness :
    posInv (decRun decInit
      [.openD (.ogg (some { channels := 2, sample_rate := 44100, total_frames := 100 })),
       .seekD 0 (-5), .readD 0 10 4, .closeD 0]) ∧
    (openedDecoder 1 { channels := 2, sample_rate := 44100, total_frames := 100 }).position
      = 0 ∧
    (decGet (jove_decoder_seek (decRun decInit
        [.openD (.ogg (some { channels := 2, sample_rate := 44100, total_frames := 100 }))])
        0 (-7)) 0).position = if (-7 : Int) < 0 then 0 else -7 :=
  have h := position_nonneg
    [.openD (.ogg (some { channels := 2, sample_rate := 44100, total_frames := 100 })),
     .seekD 0 (-5), .readD 0 10 4, .closeD 0] (by decide)
  ⟨h.1, h.2.1 1 { channels := 2, sample_rate := 44100, total_frames := 100 },
    h.2.2 (decRun decInit
        [.openD (.ogg (some { channels := 2, sample_rate := 44100, total_frames := 100 }))])
      0 (-7) (by decide) (by decide) (by decide)⟩

/-! ## C3: batched step truncation -/

theorem clampCount_eq_min (avail cap : Int) : clampCount avail cap = min avail cap := by
  rw [clampCount, Int.min_def]
  split_ifs <;> omega

theorem writeList_of_length_le {γ : Type} (init : Nat → γ) (vals : List γ) (j : Nat)
    (h : vals.length ≤ j) : writeList init vals j = init j := by
  rw [writeList, dif_neg (by omega)]

theorem writeList_of_lt {γ : Type} (init : Nat → γ) (vals : List γ) (j : Nat)
    (h : j < vals.length) : writeList init vals j = vals.get ⟨j, h⟩ := dif_pos h

theorem harvest_untouched {β γ : Type} (init : Nat → γ) (l : List β) (f : β → γ)
    (cap : Int) (j : Nat) (hj : (min (l.length : Int) cap).toNat ≤ j) :
    writeList init ((l.take (clampCount (l.length : Int) cap).toNat).map f) j = init j := by
  apply writeList_of_length_le
  rw [List.length_map, List.length_take, clampCount_eq_min]
  omega

theorem harvest_value {β γ : Type} (init : Nat → γ) (l : List β) (f : β → γ)
    (cap : Int) (j : Nat) (hj : j < (min (l.length : Int) cap).toNat) :
    ∃ e, l[j]? = some e ∧
      writeList init ((l.take (clampCount (l.length : Int) cap).toNat).map f) j = f e := by
  have hjl : j < l.length := by omega
  have hlen : j < ((l.take (clampCount (l.length : Int) cap).toNat).map f).length := by
    rw [List.length_map, List.length_take, clampCount_eq_min]
    omega
  refine ⟨l.get ⟨j, hjl⟩, by simp, ?_⟩
  rw [writeList_of_lt _ _ _ hlen]
  simp [List.getElem_map, List.getElem_take]

/-- C3: for every event category of the batched step and every non-negative
caller capacity, `jove_World_UpdateFull` records
`n = min(available_count, capacity)` in that category's slot of the counts
array, writes the translated events into indices `0 .. n-1` of the output
arrays, and leaves every index from `n` on of every output array exactly as
the caller supplied it; with no pending events all four counts are 0 and no
output array cell changes. -/
theorem update_full_truncation {ρ σ α : Type}
    (ga : ρ → α) (gu : σ → Int) (ev : B2Events ρ σ α)
    (maxMove maxBegin maxEnd maxHit : Int) (a : UpdateArrays α)
    (hm : 0 ≤ maxMove) (hb : 0 ≤ maxBegin) (he : 0 ≤ maxEnd) (hh : 0 ≤ maxHit) :
    (jove_World_UpdateFull ga gu ev maxMove maxBegin maxEnd maxHit a).outCounts 0 =
        min (ev.moveEvents.length : Int) maxMove ∧
    (jove_World_UpdateFull ga gu ev maxMove maxBegin maxEnd maxHit a).outCounts 1 =
        min (ev.beginEvents.length : Int) maxBegin ∧
    (jove_World_UpdateFull ga gu ev maxMove maxBegin maxEnd maxHit a).outCounts 2 =
        min (ev.endEvents.length : Int) maxEnd ∧
    (jove_World_UpdateFull ga gu ev maxMove maxBegin maxEnd maxHit a).outCounts 3 =
        min (ev.hitEvents.length : Int) maxHit ∧
    (∀ j, (min (ev.moveEvents.length : Int) maxMove).toNat ≤ j →
      (jove_World_UpdateFull ga gu ev maxMove maxBegin maxEnd maxHit a).moveBodyIdx j =
          a.moveBodyIdx j ∧
      (jove_World_UpdateFull ga gu ev maxMove maxBegin maxEnd maxHit a).movePosX j =
          a.movePosX j ∧
      (jove_World_UpdateFull ga gu ev maxMove maxBegin maxEnd maxHit a).movePosY j =
          a.movePosY j ∧
      (jove_World_UpdateFull ga gu ev maxMove maxBegin maxEnd maxHit a).moveAngle j =
          a.moveAngle j) ∧
    (∀ j, (min (ev.beginEvents.length : Int) maxBegin).toNat ≤ j →
      (jove_World_UpdateFull ga gu ev maxMove maxBegin maxEnd maxHit a).beginShapeA j =
          a.beginShapeA j ∧
      (jove_World_UpdateFull ga gu ev maxMove maxBegin maxEnd maxHit a).beginShapeB j =
          a.beginShapeB j) ∧
    (∀ j, (min (ev.endEvents.length : Int) maxEnd).toNat ≤ j →
      (jove_World_UpdateFull ga gu ev maxMove maxBegin maxEnd maxHit a).endShapeA j =
          a.endShapeA j ∧
      (jove_World_UpdateFull ga gu ev maxMove maxBegin maxEnd maxHit a).endShapeB j =
          a.endShapeB j) ∧
    (∀ j, (min (ev.hitEvents.length : Int) maxHit).toNat ≤ j →
      (jove_World_UpdateFull ga gu ev maxMove maxBegin maxEnd maxHit a).hitShapeA j =
          a.hitShapeA j ∧
      (jove_World_UpdateFull ga gu ev maxMove maxBegin maxEnd maxHit a).hitShapeB j =
          a.hitShapeB j ∧
      (jove_World_UpdateFull ga gu ev maxMove maxBegin maxEnd maxHit a).hitNormX j =
          a.hitNormX j ∧
      (jove_World_UpdateFull ga gu ev maxMove maxBegin maxEnd maxHit a).hitNormY j =
          a.hitNormY j ∧
      (jove_World_UpdateFull ga gu ev maxMove maxBegin maxEnd maxHit a).hitPointX j =
          a.hitPointX j ∧
      (jove_World_UpdateFull ga gu ev maxMove maxBegin maxEnd maxHit a).hitPointY j =
          a.hitPointY j ∧
      (jove_World_UpdateFull ga gu ev maxMove maxBegin maxEnd maxHit a).hitSpeed j =
          a.hitSpeed j) ∧
    (∀ j, j < (min (ev.moveEvents.length : Int) maxMove).toNat →
      ∃ e, ev.moveEvents[j]? = some e ∧
        (jove_World_UpdateFull ga gu ev maxMove maxBegin maxEnd maxHit a).moveBodyIdx j =
          recoverHandle e.userData ∧
        (jove_World_UpdateFull ga gu ev maxMove maxBegin maxEnd maxHit a).movePosX j =
          e.px ∧
        (jove_World_UpdateFull ga gu ev maxMove maxBegin maxEnd maxHit a).movePosY j =
          e.py ∧
        (jove_World_UpdateFull ga gu ev maxMove maxBegin maxEnd maxHit a).moveAngle j =
          ga e.q) ∧
    (∀ j, j < (min (ev.beginEvents.length : Int) maxBegin).toNat →
      ∃ e, ev.beginEvents[j]? = some e ∧
        (jove_World_UpdateFull ga gu ev maxMove maxBegin maxEnd maxHit a).beginShapeA j =
          recoverHandle (gu e.shapeIdA) ∧
        (jove_World_UpdateFull ga gu ev maxMove maxBegin maxEnd maxHit a).beginShapeB j =
          recoverHandle (gu e.shapeIdB)) ∧
    (∀ j, j < (min (ev.endEvents.length : Int) maxEnd).toNat →
      ∃ e, ev.endEvents[j]? = some e ∧
        (jove_World_UpdateFull ga gu ev maxMove maxBegin maxEnd maxHit a).endShapeA j =
          recoverHandle (gu e.shapeIdA) ∧
        (jove_World_UpdateFull ga gu ev maxMove maxBegin maxEnd maxHit a).endShapeB j =
          recoverHandle (gu e.shapeIdB)) ∧
    (∀ j, j < (min (ev.hitEvents.length : Int) maxHit).toNat →
      ∃ e, ev.hitEvents[j]? = some e ∧
        (jove_World_UpdateFull ga gu ev maxMove maxBegin maxEnd maxHit a).hitShapeA j =
          recoverHandle (gu e.shapeIdA) ∧
        (jove_World_UpdateFull ga gu ev maxMove maxBegin maxEnd maxHit a).hitShapeB j =
          recoverHandle (gu e.shapeIdB) ∧
        (jove_World_UpdateFull ga gu ev maxMove maxBegin maxEnd maxHit a).hitNormX j =
          e.normX ∧
        (jove_World_UpdateFull ga gu ev maxMove maxBegin maxEnd maxHit a).hitSpeed j =
          e.approachSpeed) ∧
    (ev.moveEvents = [] ∧ ev.beginEvents = [] ∧ ev.endEvents = [] ∧ ev.hitEvents = [] →
      (jove_World_UpdateFull ga gu ev maxMove maxBegin maxEnd maxHit a).outCounts 0 = 0 ∧
      (jove_World_UpdateFull ga gu ev maxMove maxBegin maxEnd maxHit a).outCounts 1 = 0 ∧
      (jove_World_UpdateFull ga gu ev maxMove maxBegin maxEnd maxHit a).outCounts 2 = 0 ∧
      (jove_World_UpdateFull ga gu ev maxMove maxBegin maxEnd maxHit a).outCounts 3 = 0 ∧
      ∀ j, (jove_World_UpdateFull ga gu ev maxMove maxBegin maxEnd maxHit a).moveBodyIdx j =
          a.moveBodyIdx j ∧
        (jove_World_UpdateFull ga gu ev maxMove maxBegin maxEnd maxHit a).movePosX j =
          a.movePosX j ∧
        (jove_World_UpdateFull ga gu ev maxMove maxBegin maxEnd maxHit a).movePosY j =
          a.movePosY j ∧
        (jove_World_UpdateFull ga gu ev maxMove maxBegin maxEnd maxHit a).moveAngle j =
          a.moveAngle j ∧
        (jove_World_UpdateFull ga gu ev maxMove maxBegin maxEnd maxHit a).beginShapeA j =
          a.beginShapeA j ∧
        (jove_World_UpdateFull ga gu ev maxMove maxBegin maxEnd maxHit a).beginShapeB j =
          a.beginShapeB j ∧
        (jove_World_UpdateFull ga gu ev maxMove maxBegin maxEnd maxHit a).endShapeA j =
          a.endShapeA j ∧
        (jove_World_UpdateFull ga gu ev maxMove maxBegin maxEnd maxHit a).endShapeB j =
          a.endShapeB j ∧
        (jove_World_UpdateFull ga gu ev maxMove maxBegin maxEnd maxHit a).hitShapeA j =
          a.hitShapeA j ∧
        (jove_World_UpdateFull ga gu ev maxMove maxBegin maxEnd maxHit a).hitShapeB j =
          a.hitShapeB j ∧
        (jove_World_UpdateFull ga gu ev maxMove maxBegin maxEnd maxHit a).hitNormX j =
          a.hitNormX j ∧
        (jove_World_UpdateFull ga gu ev maxMove maxBegin maxEnd maxHit a).hitNormY j =
          a.hitNormY j ∧
        (jove_World_UpdateFull ga gu ev maxMove maxBegin maxEnd maxHit a).hitPointX j =
          a.hitPointX j ∧
        (jove_World_UpdateFull ga gu ev maxMove maxBegin maxEnd maxHit a).hitPointY j =
          a.hitPointY j ∧
        (jove_World_UpdateFull ga gu ev maxMove maxBegin maxEnd maxHit a).hitSpeed j =
          a.hitSpeed j) := by
  simp only [jove_World_UpdateFull]
  refine ⟨?_, ?_, ?_, ?_, ?_, ?_, ?_, ?_, ?_, ?_, ?_, ?_, ?_⟩
  · simp [clampCount_eq_min]
  · simp [clampCount_eq_min]
  · simp [clampCount_eq_min]
  · simp [clampCount_eq_min]
  · exact fun j hj => ⟨harvest_untouched _ _ _ _ j hj, harvest_untouched _ _ _ _ j hj,
      harvest_untouched _ _ _ _ j hj, harvest_untouched _ _ _ _ j hj⟩
  · exact fun j hj => ⟨harvest_untouched _ _ _ _ j hj, harvest_untouched _ _ _ _ j hj⟩
  · exact fun j hj => ⟨harvest_untouched _ _ _ _ j hj, harvest_untouched _ _ _ _ j hj⟩
  · exact fun j hj => ⟨harvest_untouched _ _ _ _ j hj, harvest_untouched _ _ _ _ j hj,
      harvest_untouched _ _ _ _ j hj, harvest_untouched _ _ _ _ j hj,
      harvest_untouched _ _ _ _ j hj, harvest_untouched _ _ _ _ j hj,
      harvest_untouched _ _ _ _ j hj⟩
  · intro j hj
    obtain ⟨e, he1, he2⟩ := harvest_value a.moveBodyIdx ev.moveEvents
      (fun e => recoverHandle e.userData) maxMove j hj
    obtain ⟨e2, hf1, hf2⟩ := harvest_value a.movePosX ev.moveEvents
      (fun e => e.px) maxMove j hj
    obtain ⟨e3, hg1, hg2⟩ := harvest_value a.movePosY ev.moveEvents
      (fun e => e.py) maxMove j hj
    obtain ⟨e4, hh1, hh2⟩ := harvest_value a.moveAngle ev.moveEvents
      (fun e => ga e.q) maxMove j hj
    rw [he1] at hf1 hg1 hh1
    cases hf1
    cases hg1
    cases hh1
    exact ⟨e, he1, he2, hf2, hg2, hh2⟩
  · intro j hj
    obtain ⟨e, he1, he2⟩ := harvest_value a.beginShapeA ev.beginEvents
      (fun e => recoverHandle (gu e.shapeIdA)) maxBegin j hj
    obtain ⟨e2, hf1, hf2⟩ := harvest_value a.beginShapeB ev.beginEvents
      (fun e => recoverHandle (gu e.shapeIdB)) maxBegin j hj
    rw [he1] at hf1
    cases hf1
    exact ⟨e, he1, he2, hf2⟩
  · intro j hj
    obtain ⟨e, he1, he2⟩ := harvest_value a.endShapeA ev.endEvents
      (fun e => recoverHandle (gu e.shapeIdA)) maxEnd j hj
    obtain ⟨e2, hf1, hf2⟩ := harvest_value a.endShapeB ev.endEvents
      (fun e => recoverHandle (gu e.shapeIdB)) maxEnd j hj
    rw [he1] at hf1
    cases hf1
    exact ⟨e, he1, he2, hf2⟩
  · intro j hj
    obtain ⟨e, he1, he2⟩ := harvest_value a.hitShapeA ev.hitEvents
      (fun e => recoverHandle (gu e.shapeIdA)) maxHit j hj
    obtain ⟨e2, hf1, hf2⟩ := harvest_value a.hitShapeB ev.hitEvents
      (fun e => recoverHandle (gu e.shapeIdB)) maxHit j hj
    obtain ⟨e3, hg1, hg2⟩ := harvest_value a.hitNormX ev.hitEvents
      (fun e => e.normX) maxHit j hj
    obtain ⟨e4, hh1, hh2⟩ := harvest_value a.hitSpeed ev.hitEvents
      (fun e => e.approachSpeed) maxHit j hj
    rw [he1] at hf1 hg1 hh1
    cases hf1
    cases hg1
    cases hh1
    exact ⟨e, he1, he2, hf2, hg2, hh2⟩
  · rintro ⟨h1, h2, h3, h4⟩
    rw [h1, h2, h3, h4]
    refine ⟨?_, ?_, ?_, ?_, ?_⟩
    · simp [clampCount_eq_min]
      omega
    · simp [clampCount_eq_min]
      omega
    · simp [clampCount_eq_min]
      omega
    · simp [clampCount_eq_min]
      omega
    · intro j
      refine ⟨?_, ?_, ?_, ?_, ?_, ?_, ?_, ?_, ?_, ?_, ?_, ?_, ?_, ?_, ?_⟩ <;>
        exact writeList_of_length_le _ _ j (by simp)

/-- Witness for C3: three pending move events against capacity 2, one begin
event against capacity 5, no end events against capacity 0, one hit event
against capacity 1, over concrete integer payloads and caller arrays. -/
theorem update_full_truncation_witness :
    let ev : B2Events Int Int Int :=
      { moveEvents := [{ userData := 5, px := 10, py := 11, q := 12 },
                       { userData := 0, px := 20, py := 21, q := 22 },
                       { userData := 7, px := 30, py := 31, q := 32 }],
        beginEvents := [{ shapeIdA := 3, shapeIdB := 4 }],
        endEvents := [],
        hitEvents := [{ shapeIdA := 1, shapeIdB := 2, normX := 40, normY := 41,
                        pointX := 42, pointY := 43, approachSpeed := 44 }] }
    let a : UpdateArrays Int :=
      { moveBodyIdx := fun j => 100 + j, movePosX := fun j => 200 + j,
        movePosY := fun j => 300 + j, moveAngle := fun j => 400 + j,
        beginShapeA := fun j => 500 + j, beginShapeB := fun j => 600 + j,
        endShapeA := fun j => 700 + j, endShapeB := fun j => 800 + j,
        hitShapeA := fun j => 900 + j, hitShapeB := fun j => 1000 + j,
        hitNormX := fun j => 1100 + j, hitNormY := fun j => 1200 + j,
        hitPointX := fun j => 1300 + j, hitPointY := fun j => 1400 + j,
        hitSpeed := fun j => 1500 + j, outCounts := fun j => 1600 + j }
    let out := jove_World_UpdateFull (fun q => q + 1) (fun sid => sid * 10) ev 2 5 0 1 a
    out.outCounts 0 = min ((ev.moveEvents.length : Int)) 2 ∧
    out.outCounts 1 = min ((ev.beginEvents.length : Int)) 5 ∧
    out.outCounts 2 = min ((ev.endEvents.length : Int)) 0 ∧
    out.outCounts 3 = min ((ev.hitEvents.length : Int)) 1 ∧
    out.moveBodyIdx 2 = a.moveBodyIdx 2 ∧ out.movePosX 2 = a.movePosX 2 ∧
    out.moveBodyIdx 0 = recoverHandle 5 ∧ out.movePosX 0 = 10 := by
  have h := @update_full_truncation Int Int Int (fun q => q + 1) (fun sid => sid * 10)
    { moveEvents := [{ userData := 5, px := 10, py := 11, q := 12 },
                     { userData := 0, px := 20, py := 21, q := 22 },
                     { userData := 7, px := 30, py := 31, q := 32 }],
      beginEvents := [{ shapeIdA := 3, shapeIdB := 4 }],
      endEvents := [],
      hitEvents := [{ shapeIdA := 1, shapeIdB := 2, normX := 40, normY := 41,
                      pointX := 42, pointY := 43, approachSpeed := 44 }] }
    2 5 0 1
    { moveBodyIdx := fun j => 100 + j, movePosX := fun j => 200 + j,
      movePosY := fun j => 300 + j, moveAngle := fun j => 400 + j,
      beginShapeA := fun j => 500 + j, beginShapeB := fun j => 600 + j,
      endShapeA := fun j => 700 + j, endShapeB := fun j => 800 + j,
      hitShapeA := fun j => 900 + j, hitShapeB := fun j => 1000 + j,
      hitNormX := fun j => 1100 + j, hitNormY := fun j => 1200 + j,
      hitPointX := fun j => 1300 + j, hitPointY := fun j => 1400 + j,
      hitSpeed := fun j => 1500 + j, outCounts := fun j => 1600 + j }
    (by decide) (by decide) (by decide) (by decide)
  obtain ⟨hu1, hu2, _, _⟩ := h.2.2.2.2.1 2 (by decide)
  obtain ⟨e, he, hv1, hv2, _, _⟩ := h.2.2.2.2.2.2.2.2.1 0 (by decide)
  have hee : e = { userData := 5, px := 10, py := 11, q := 12 } := by
    simp only [List.getElem?_cons_zero, Option.some.injEq] at he
    exact he.symm
  subst hee
  exact ⟨h.1, h.2.1, h.2.2.1, h.2.2.2.1, hu1, hu2, hv1, hv2⟩

end Jove
